import Mathlib

/-!
The azuretls connection layer: `dialTLS`, `dial`, `upgradeTLS`.

A shallow embedding of `connection.go`.

* Go's `(net.Conn, error)` results are pairs of options (`GoResult`): `none` is `nil`.
* An `error` value is represented by its message (`err.Error()`).
* Calls that leave the file (the proxy dialer, the dialer hook, `net.Dialer.DialContext`,
  `net.SplitHostPort`, `Session.Pin`, `GetClientHelloSpec`, `ApplyPreset`, `Handshake`,
  `Certificate.VerifyHostname`, `PinManager.Verify`, `time.Now`) are parameters: fields of
  `Session` when they are fields or methods of the Go `Session`, fields of `Lib` otherwise.
* Every such call is appended to a trace kept in the `World`, in program order.
-/

namespace AzureTLS

/-! ## Data model -/

/-- The constant `time.Second`; a `time.Duration` is a number of nanoseconds. -/
def Second : Int := 1000000000

/-- The fields of `x509.Certificate` read by this file, with the data
`VerifyHostname` looks at. An instant (`time.Time`) is a number of nanoseconds. -/
structure Certificate where
  NotBefore : Int
  NotAfter : Int
  IsCA : Bool
  DNSNames : List String
  deriving DecidableEq, Repr

/-- A pin manager (`*PinManager`): only its method `Verify` is used here. -/
structure PinManager where
  Verify : Certificate → Bool

/-- The values this file reads from a `context.Context`: the one stored under
`userAgentKey` (asserted to be a string on line 25) and the one stored under
`forceHTTP1Key` (read with the two-valued assertion `.(bool)`); `none` is an absent
value. `id` tells contexts apart. -/
structure Context where
  id : Nat
  userAgent : Option String
  forceHTTP1 : Option Bool
  deriving DecidableEq, Repr

/-- A raw transport connection (`net.Conn` as returned by a dialer). -/
structure RawConn where
  id : Nat
  deriving DecidableEq, Repr

/-- The fields of `net.Dialer` set by `dial`. -/
structure Dialer where
  Timeout : Int
  KeepAlive : Int
  deriving DecidableEq, Repr

/-- A Go result pair `(conn, err)`. -/
structure GoResult (α : Type) where
  conn : Option α
  err : Option String
  deriving DecidableEq, Repr

/-- A TLS extension of a Client Hello profile: `*tls.ALPNExtension` or any other
extension, kept as its type number and content. -/
inductive TLSExtension where
  | ALPNExtension (AlpnProtocols : List String)
  | other (extType : Nat) (data : List Nat)
  deriving DecidableEq, Repr

/-- The profile `tls.ClientHelloSpec`. -/
structure ClientHelloSpec where
  CipherSuites : List Nat
  CompressionMethods : List Nat
  Extensions : List TLSExtension
  deriving DecidableEq, Repr

/-- The variables captured by the function literal stored in
`tls.Config.VerifyPeerCertificate` (the session itself is reached through the
pointer `s` when the callback runs). -/
structure VerifyClosure where
  hostname : String
  addr : String
  deriving DecidableEq, Repr

/-- The fields of `tls.Config` set by `upgradeTLS`. -/
structure TLSConfig where
  ServerName : String
  InsecureSkipVerify : Bool
  NextProtos : List String
  VerifyPeerCertificate : VerifyClosure
  deriving DecidableEq, Repr

/-- The value `tlsConn.Conn` of a `*tls.UConn`: the wrapped raw connection and the
configuration it points to. -/
structure TLSConn where
  conn : Option RawConn
  config : TLSConfig
  deriving DecidableEq, Repr

/-- The Go `Session`, restricted to what `connection.go` reads. `PinManager` is a map
that may be nil (`none`); looking up an address gives `none` when there is no entry
(or a nil one). `Pin` is the method `Session.Pin`. -/
structure Session where
  ProxyDialer : Option (Context → String → String → String → GoResult RawConn)
  UserAgent : String
  TimeOut : Int
  ModifyDialer : Option (Dialer → Dialer × Option String)
  InsecureSkipVerify : Bool
  PinManager : Option (String → Option PinManager)
  GetClientHelloSpec : Unit → ClientHelloSpec
  Pin : String → Option String

/-- The outcome of `tlsConn.Handshake()`: its error, and whether the TLS library
closed the underlying raw connection while handshaking. -/
structure HandshakeOutcome where
  err : Option String
  closedRaw : Bool
  deriving DecidableEq, Repr

/-- The library calls made by `connection.go`. -/
structure Lib where
  /-- The call `net.SplitHostPort(addr)`: host and port, or an error. -/
  splitHostPort : String → Except String (String × String)
  /-- The call `(*net.Dialer).DialContext`. -/
  dialContext : Dialer → Context → String → String → GoResult RawConn
  /-- The call `(*tls.UConn).ApplyPreset`. -/
  applyPreset : TLSConn → ClientHelloSpec → Option String
  /-- The call `(*tls.UConn).Handshake`, on a connection with a preset applied. -/
  handshake : TLSConn → ClientHelloSpec → HandshakeOutcome
  /-- The call `(*x509.Certificate).VerifyHostname`. -/
  verifyHostname : Certificate → String → Option String

/-- One call that leaves `connection.go`. -/
inductive Event where
  | proxyDialContext (ctx : Context) (userAgent network addr : String)
  | modifyDialer (d : Dialer)
  | dialContext (d : Dialer) (ctx : Context) (network addr : String)
  | splitHostPort (addr : String)
  | pin (addr : String)
  | uClient (conn : Option RawConn) (config : TLSConfig)
  | getClientHelloSpec
  | applyPreset (tlsConn : TLSConn) (specs : ClientHelloSpec)
  | handshake (tlsConn : TLSConn)
  deriving DecidableEq, Repr

/-- What a run has done so far: the calls made, oldest first, and the raw connections
that have been closed. -/
structure World where
  trace : List Event
  closed : List RawConn
  deriving DecidableEq, Repr

/-! ## The certificate-verification callback (lines 61-104) -/

/-- The body of the inner loop of lines 68-81, for one certificate: `some e` is
`return e`, `none` is falling through to the next certificate. -/
def checkCert (lib : Lib) (hostname : String) (now : Int) (cert : Certificate) :
    Option String :=
  if now < cert.NotBefore then
    some "certificate is not valid yet"
  else if now > cert.NotAfter then
    some "certificate is expired"
  else if cert.IsCA then
    none
  else
    lib.verifyHostname cert hostname

/-- The inner loop of lines 68-81 over one chain. -/
def checkChain (lib : Lib) (hostname : String) (now : Int) :
    List Certificate → Option String
  | [] => none
  | cert :: rest =>
    match checkCert lib hostname now cert with
    | some e => some e
    | none => checkChain lib hostname now rest

/-- The outer loop of lines 67-82 over the verified chains. -/
def checkChains (lib : Lib) (hostname : String) (now : Int) :
    List (List Certificate) → Option String
  | [] => none
  | chain :: rest =>
    match checkChain lib hostname now chain with
    | some e => some e
    | none => checkChains lib hostname now rest

/-- The inner loop of lines 97-101: `true` is `return nil`. -/
def pinChain (manager : PinManager) : List Certificate → Bool
  | [] => false
  | cert :: rest => if manager.Verify cert then true else pinChain manager rest

/-- The outer loop of lines 96-102: `true` is `return nil`. -/
def pinChains (manager : PinManager) : List (List Certificate) → Bool
  | [] => false
  | chain :: rest => if pinChain manager chain then true else pinChains manager rest

/-- The function literal of lines 61-104, called on the session as it is when the
TLS engine invokes it, with `now` the value of `time.Now()`. `none` is `nil`. -/
def verifyPeerCertificate (lib : Lib) (s : Session) (c : VerifyClosure) (now : Int)
    (_rawCerts : List (List Nat)) (verifiedChains : List (List Certificate)) :
    Option String :=
  if s.InsecureSkipVerify then
    none
  else
    match checkChains lib c.hostname now verifiedChains with
    | some e => some e
    | none =>
      match s.PinManager with
      | none => none
      | some pinManager =>
        match pinManager c.addr with
        | none => none
        | some manager =>
          if pinChains manager verifiedChains then
            none
          else
            some "pin verification failed"

/-! ## `dial` (lines 21-42) -/

/-- Appends one call to the trace. -/
def World.log (w : World) (e : Event) : World :=
  { w with trace := w.trace ++ [e] }

/-- Records that the TLS library closed the raw connection under a TLS connection. -/
def World.close (w : World) (conn : Option RawConn) : World :=
  match conn with
  | some c => { w with closed := w.closed ++ [c] }
  | none => w

/-- The method `(*Session).dial`. -/
def dial (lib : Lib) (s : Session) (ctx : Context) (network addr : String) (w : World) :
    GoResult RawConn × World :=
  match s.ProxyDialer with
  | some proxyDialer =>
    let userAgent :=
      match ctx.userAgent with
      | some ua => ua
      | none => s.UserAgent
    (proxyDialer ctx userAgent network addr,
      w.log (Event.proxyDialContext ctx userAgent network addr))
  | none =>
    let dialer : Dialer := { Timeout := s.TimeOut, KeepAlive := 30 * Second }
    match s.ModifyDialer with
    | some modifyDialer =>
      let w1 := w.log (Event.modifyDialer dialer)
      match modifyDialer dialer with
      | (_, some err) => ({ conn := none, err := some err }, w1)
      | (dialer1, none) =>
        (lib.dialContext dialer1 ctx network addr,
          w1.log (Event.dialContext dialer1 ctx network addr))
    | none =>
      (lib.dialContext dialer ctx network addr,
        w.log (Event.dialContext dialer ctx network addr))

/-! ## `upgradeTLS` (lines 44-130) -/

/-- The loop of lines 111-116: every `*tls.ALPNExtension` gets the protocol list
`["http/1.1"]`, every other extension is left alone. -/
def forceALPN : List TLSExtension → List TLSExtension
  | [] => []
  | TLSExtension.ALPNExtension _ :: rest =>
    TLSExtension.ALPNExtension ["http/1.1"] :: forceALPN rest
  | TLSExtension.other t d :: rest => TLSExtension.other t d :: forceALPN rest

/-- The method `(*Session).upgradeTLS`. The configuration is shared by pointer between
`config` and the TLS connection made by `tls.UClient`, so the assignment to
`config.NextProtos` on line 118 is seen by the connection. -/
def upgradeTLS (lib : Lib) (s : Session) (ctx : Context) (conn : Option RawConn)
    (addr : String) (w : World) : GoResult TLSConn × World :=
  let w1 := w.log (Event.splitHostPort addr)
  match lib.splitHostPort addr with
  | Except.error err =>
    ({ conn := none, err := some ("failed to split addr and port: " ++ err) }, w1)
  | Except.ok (hostname, _) =>
    let pinned : Option String × World :=
      if !s.InsecureSkipVerify then (s.Pin addr, w1.log (Event.pin addr)) else (none, w1)
    match pinned with
    | (some err, w2) => ({ conn := none, err := some ("failed to pin: " ++ err) }, w2)
    | (none, w2) =>
      let config : TLSConfig :=
        { ServerName := hostname
          InsecureSkipVerify := s.InsecureSkipVerify
          NextProtos := []
          VerifyPeerCertificate := { hostname := hostname, addr := addr } }
      let w3 := w2.log (Event.uClient conn config)
      let specs := s.GetClientHelloSpec ()
      let w4 := w3.log Event.getClientHelloSpec
      let forced : Bool := ctx.forceHTTP1 == some true
      let specs1 : ClientHelloSpec :=
        if forced then { specs with Extensions := forceALPN specs.Extensions } else specs
      let config1 : TLSConfig :=
        if forced then { config with NextProtos := ["http/1.1"] } else config
      let tlsConn : TLSConn := { conn := conn, config := config1 }
      let w5 := w4.log (Event.applyPreset tlsConn specs1)
      match lib.applyPreset tlsConn specs1 with
      | some err => ({ conn := none, err := some ("failed to apply preset: " ++ err) }, w5)
      | none =>
        let out := lib.handshake tlsConn specs1
        let w6 := w5.log (Event.handshake tlsConn)
        let w7 := if out.closedRaw then w6.close conn else w6
        match out.err with
        | some err => ({ conn := none, err := some ("failed to handshake: " ++ err) }, w7)
        | none => ({ conn := some tlsConn, err := none }, w7)

/-! ## `dialTLS` (lines 12-19) -/

/-- The method `(*Session).dialTLS`. -/
def dialTLS (lib : Lib) (s : Session) (ctx : Context) (network addr : String)
    (w : World) : GoResult TLSConn × World :=
  match dial lib s ctx network addr w with
  | (r, w1) =>
    match r.err with
    | some err => ({ conn := none, err := some ("failed to dial: " ++ err) }, w1)
    | none => upgradeTLS lib s ctx r.conn addr w1

/-! ## Properties named by the specification -/

/-- A certificate passes the checks of section 4.3: the current time is inside its
validity window, and, unless it is a CA certificate, it matches the hostname. -/
def CertAccepted (lib : Lib) (hostname : String) (now : Int) (cert : Certificate) : Prop :=
  cert.NotBefore ≤ now ∧ now ≤ cert.NotAfter ∧
    (cert.IsCA = false → lib.verifyHostname cert hostname = none)

/-- A certificate is rejected with error `e`, as section 4.3 lists the rejections: not
yet valid, expired, or (for a certificate that is not a CA certificate) the error of
the hostname match. -/
def CertRejected (lib : Lib) (hostname : String) (now : Int) (cert : Certificate)
    (e : String) : Prop :=
  (now < cert.NotBefore ∧ e = "certificate is not valid yet") ∨
  (cert.NotBefore ≤ now ∧ cert.NotAfter < now ∧ e = "certificate is expired") ∨
  (cert.NotBefore ≤ now ∧ now ≤ cert.NotAfter ∧ cert.IsCA = false ∧
    lib.verifyHostname cert hostname = some e)

/-- The calls made between two worlds of one run: the trace of the later world
without the calls already in the earlier one. -/
def World.since (w0 w1 : World) : List Event :=
  w1.trace.drop w0.trace.length

/-- The stage of `upgradeTLS` a call belongs to: 0 the address split, 1 the pin
pre-check, 2 the preset application, 3 the handshake; `none` for the other calls. -/
def Event.stage : Event → Option Nat
  | Event.splitHostPort _ => some 0
  | Event.pin _ => some 1
  | Event.applyPreset _ _ => some 2
  | Event.handshake _ => some 3
  | _ => none

/-- The configuration built on lines 58-105 for a host name and an address. -/
def configFor (s : Session) (hostname addr : String) : TLSConfig :=
  { ServerName := hostname
    InsecureSkipVerify := s.InsecureSkipVerify
    NextProtos := []
    VerifyPeerCertificate := { hostname := hostname, addr := addr } }

/-- The TLS connection `ApplyPreset` and `Handshake` are called on, once lines
110-119 have run. -/
def presetConn (s : Session) (ctx : Context) (conn : Option RawConn)
    (hostname addr : String) : TLSConn :=
  { conn := conn
    config :=
      if ctx.forceHTTP1 = some true then
        { configFor s hostname addr with NextProtos := ["http/1.1"] }
      else configFor s hostname addr }

/-- The profile handed to `ApplyPreset`, once lines 110-119 have run. -/
def presetSpecs (s : Session) (ctx : Context) : ClientHelloSpec :=
  if ctx.forceHTTP1 = some true then
    { s.GetClientHelloSpec () with
      Extensions := forceALPN (s.GetClientHelloSpec ()).Extensions }
  else s.GetClientHelloSpec ()

/-- The calls `upgradeTLS` makes up to and including `ApplyPreset`, when the address
splits and the pin pre-check, if run, passes. -/
def presetCalls (s : Session) (ctx : Context) (conn : Option RawConn)
    (hostname addr : String) : List Event :=
  [Event.splitHostPort addr] ++ (if s.InsecureSkipVerify then [] else [Event.pin addr]) ++
    [Event.uClient conn (configFor s hostname addr), Event.getClientHelloSpec,
      Event.applyPreset (presetConn s ctx conn hostname addr) (presetSpecs s ctx)]

/-- The stage labels the specification lists for errors: dial, split, pin and
handshake, each as the text the code puts in front of the cause. -/
def specStageLabels : List String :=
  ["failed to dial: ", "failed to split addr and port: ", "failed to pin: ",
    "failed to handshake: "]

/-! ## Concrete instances -/

/-- A hostname check by exact match against the DNS names of the certificate. -/
def exactHostname (cert : Certificate) (hostname : String) : Option String :=
  if hostname ∈ cert.DNSNames then none
  else some ("x509: certificate is not valid for " ++ hostname)

/-- A library in which `example.com:443` splits and can be dialled, every non-empty
profile applies, and every handshake succeeds. -/
def libOK : Lib where
  splitHostPort := fun addr =>
    if addr = "example.com:443" then Except.ok ("example.com", "443")
    else Except.error "missing port in address"
  dialContext := fun _ _ _ addr =>
    if addr = "example.com:443" then { conn := some { id := 1 }, err := none }
    else { conn := none, err := some "connection refused" }
  applyPreset := fun _ specs =>
    if specs.Extensions = [] then some "empty profile" else none
  handshake := fun _ _ => { err := none, closedRaw := false }
  verifyHostname := exactHostname

/-- A leaf certificate for `example.com`, valid from 100 to 200. -/
def leafCert : Certificate :=
  { NotBefore := 100, NotAfter := 200, IsCA := false, DNSNames := ["example.com"] }

/-- A CA certificate without DNS names, valid from 0 to 1000. -/
def caCert : Certificate :=
  { NotBefore := 0, NotAfter := 1000, IsCA := true, DNSNames := [] }

/-- A pin manager that accepts exactly `caCert`. -/
def pinCA : PinManager where
  Verify := fun cert => decide (cert = caCert)

/-- A profile with an ALPN extension for `h2` and `http/1.1` between two others. -/
def chromeLike : ClientHelloSpec :=
  { CipherSuites := [4865, 4866]
    CompressionMethods := [0]
    Extensions :=
      [TLSExtension.other 0 [1], TLSExtension.ALPNExtension ["h2", "http/1.1"],
        TLSExtension.other 43 [3, 4]] }

/-- A session without proxy, hook or pin managers, with insecure mode off. -/
def plainSession : Session where
  ProxyDialer := none
  UserAgent := "azuretls"
  TimeOut := 5 * Second
  ModifyDialer := none
  InsecureSkipVerify := false
  PinManager := none
  GetClientHelloSpec := fun _ => chromeLike
  Pin := fun _ => none

/-- The closure built by `upgradeTLS` for `example.com:443`. -/
def exampleClosure : VerifyClosure :=
  { hostname := "example.com", addr := "example.com:443" }

/-- A context without overrides. -/
def plainCtx : Context :=
  { id := 0, userAgent := none, forceHTTP1 := none }

/-- The world before anything happened. -/
def World.init : World :=
  { trace := [], closed := [] }

/-- A session whose pin-manager map holds `pinCA` for `example.com:443` only. -/
def pinnedSession : Session :=
  { plainSession with
    PinManager := some (fun addr => if addr = "example.com:443" then some pinCA else none) }

/-- A session in insecure mode, with the pin managers of `pinnedSession`. -/
def insecureSession : Session :=
  { pinnedSession with InsecureSkipVerify := true }

/-- A leaf certificate for another host that expired at 50. -/
def staleCert : Certificate :=
  { NotBefore := 10, NotAfter := 50, IsCA := false, DNSNames := ["other.test"] }

/-- A context carrying the force-HTTP/1.1 flag set to true. -/
def forcedCtx : Context :=
  { id := 0, userAgent := none, forceHTTP1 := some true }

/-- The profile `chromeLike` with its ALPN extension listing `http/1.1` only. -/
def chromeLikeHTTP1 : ClientHelloSpec :=
  { CipherSuites := [4865, 4866]
    CompressionMethods := [0]
    Extensions :=
      [TLSExtension.other 0 [1], TLSExtension.ALPNExtension ["http/1.1"],
        TLSExtension.other 43 [3, 4]] }

/-- A session whose pin pre-check fails. -/
def pinFailSession : Session :=
  { plainSession with Pin := fun _ => some "no pin for host" }

/-- A session whose profile has no extension, which `libOK` refuses to apply. -/
def emptyProfileSession : Session :=
  { plainSession with
    GetClientHelloSpec := fun _ =>
      { CipherSuites := [], CompressionMethods := [], Extensions := [] } }

/-- A session whose dialer hook shortens the timeout and then fails. -/
def hookFailSession : Session :=
  { plainSession with
    ModifyDialer := some (fun d => ({ d with Timeout := 1 }, some "hook refused")) }

/-- A session with a proxy dialer that serves the user agent `curl/8` only; it also
has a dialer hook, which always fails. -/
def proxySession : Session :=
  { hookFailSession with
    ProxyDialer := some (fun _ userAgent _ _ =>
      if userAgent = "curl/8" then { conn := some { id := 7 }, err := none }
      else { conn := none, err := some "proxy unreachable" }) }

/-- A context with a user-agent override. -/
def curlCtx : Context :=
  { id := 0, userAgent := some "curl/8", forceHTTP1 := none }

/-- The library `libOK` with a handshake that always fails, leaving the raw
connection as it is. -/
def libHandshakeFail : Lib :=
  { libOK with
    handshake := fun _ _ => { err := some "remote error: tls: bad certificate",
                              closedRaw := false } }

/-! ## Lemmas on the loops of the callback -/

theorem checkCert_eq_none_iff (lib : Lib) (hostname : String) (now : Int)
    (cert : Certificate) :
    checkCert lib hostname now cert = none ↔ CertAccepted lib hostname now cert := by
  unfold checkCert CertAccepted
  by_cases h1 : now < cert.NotBefore
  · rw [if_pos h1]
    constructor
    · intro h; cases h
    · intro h; omega
  · rw [if_neg h1]
    by_cases h2 : now > cert.NotAfter
    · rw [if_pos h2]
      constructor
      · intro h; cases h
      · intro h; omega
    · rw [if_neg h2]
      have h3 : cert.NotBefore ≤ now := by omega
      have h4 : now ≤ cert.NotAfter := by omega
      cases hca : cert.IsCA
      · simp [h3, h4]
      · simp [h3, h4]

theorem checkCert_eq_some_iff (lib : Lib) (hostname : String) (now : Int)
    (cert : Certificate) (e : String) :
    checkCert lib hostname now cert = some e ↔ CertRejected lib hostname now cert e := by
  unfold checkCert CertRejected
  by_cases h1 : now < cert.NotBefore
  · rw [if_pos h1]
    have h3 : ¬ cert.NotBefore ≤ now := by omega
    simp only [h1, h3, true_and, false_and, or_false, Option.some.injEq]
    exact eq_comm
  · rw [if_neg h1]
    have h3 : cert.NotBefore ≤ now := by omega
    by_cases h2 : now > cert.NotAfter
    · rw [if_pos h2]
      have h4 : ¬ now ≤ cert.NotAfter := by omega
      have h5 : cert.NotAfter < now := h2
      simp only [h1, h3, h4, h5, true_and, false_and, or_false, false_or,
        Option.some.injEq]
      exact eq_comm
    · rw [if_neg h2]
      have h4 : now ≤ cert.NotAfter := by omega
      have h5 : ¬ cert.NotAfter < now := by omega
      cases hca : cert.IsCA
      · simp [h1, h3, h4, h5]
      · simp [h1, h3, h4, h5]

theorem checkChain_eq_findSome (lib : Lib) (hostname : String) (now : Int)
    (chain : List Certificate) :
    checkChain lib hostname now chain = chain.findSome? (checkCert lib hostname now) := by
  induction chain with
  | nil => rfl
  | cons cert rest ih =>
    simp only [checkChain, List.findSome?]
    cases checkCert lib hostname now cert with
    | none => exact ih
    | some e => rfl

theorem checkChains_eq_findSome (lib : Lib) (hostname : String) (now : Int)
    (chains : List (List Certificate)) :
    checkChains lib hostname now chains
      = chains.flatten.findSome? (checkCert lib hostname now) := by
  induction chains with
  | nil => rfl
  | cons chain rest ih =>
    simp only [checkChains, List.flatten, List.findSome?_append, checkChain_eq_findSome]
    cases h : chain.findSome? (checkCert lib hostname now) with
    | none => simpa using ih
    | some e => simp

theorem checkChains_eq_none_iff (lib : Lib) (hostname : String) (now : Int)
    (chains : List (List Certificate)) :
    checkChains lib hostname now chains = none ↔
      ∀ chain ∈ chains, ∀ cert ∈ chain, CertAccepted lib hostname now cert := by
  rw [checkChains_eq_findSome, List.findSome?_eq_none_iff]
  simp only [List.mem_flatten, checkCert_eq_none_iff]
  constructor
  · intro h chain hchain cert hcert
    exact h cert ⟨chain, hchain, hcert⟩
  · rintro h cert ⟨chain, hchain, hcert⟩
    exact h chain hchain cert hcert

theorem checkChains_eq_some_iff (lib : Lib) (hostname : String) (now : Int)
    (chains : List (List Certificate)) (e : String) :
    checkChains lib hostname now chains = some e ↔
      ∃ before cert after, chains.flatten = before ++ cert :: after ∧
        (∀ x ∈ before, CertAccepted lib hostname now x) ∧
        CertRejected lib hostname now cert e := by
  rw [checkChains_eq_findSome, List.findSome?_eq_some_iff]
  simp only [checkCert_eq_none_iff, checkCert_eq_some_iff]
  constructor
  · rintro ⟨l₁, a, l₂, h1, h2, h3⟩
    exact ⟨l₁, a, l₂, h1, h3, h2⟩
  · rintro ⟨l₁, a, l₂, h1, h2, h3⟩
    exact ⟨l₁, a, l₂, h1, h3, h2⟩

theorem checkCert_congr (lib lib2 : Lib) (hostname : String) (now : Int)
    (h : ∀ cert, cert.IsCA = false →
      lib2.verifyHostname cert hostname = lib.verifyHostname cert hostname)
    (cert : Certificate) :
    checkCert lib2 hostname now cert = checkCert lib hostname now cert := by
  unfold checkCert
  cases hca : cert.IsCA
  · simp [h cert hca]
  · simp

theorem pinChain_eq_true_iff (manager : PinManager) (chain : List Certificate) :
    pinChain manager chain = true ↔ ∃ cert ∈ chain, manager.Verify cert = true := by
  induction chain with
  | nil => simp [pinChain]
  | cons cert rest ih =>
    simp only [pinChain, List.mem_cons, exists_eq_or_imp]
    cases hv : manager.Verify cert
    · simpa using ih
    · simp

theorem pinChains_eq_true_iff (manager : PinManager) (chains : List (List Certificate)) :
    pinChains manager chains = true ↔
      ∃ chain ∈ chains, ∃ cert ∈ chain, manager.Verify cert = true := by
  induction chains with
  | nil => simp [pinChains]
  | cons chain rest ih =>
    simp only [pinChains, List.mem_cons, exists_eq_or_imp]
    cases hp : pinChain manager chain
    · have hno : ¬ ∃ cert ∈ chain, manager.Verify cert = true := by
        rw [← pinChain_eq_true_iff, hp]; simp
      simpa [hno] using ih
    · have hyes : ∃ cert ∈ chain, manager.Verify cert = true :=
        (pinChain_eq_true_iff manager chain).1 hp
      simp [hyes]

theorem verify_eq_checkChains (lib : Lib) (s : Session) (c : VerifyClosure) (now : Int)
    (rawCerts : List (List Nat)) (chains : List (List Certificate))
    (hsecure : s.InsecureSkipVerify = false)
    (hnone : ∀ m, s.PinManager = some m → m c.addr = none) :
    verifyPeerCertificate lib s c now rawCerts chains
      = checkChains lib c.hostname now chains := by
  unfold verifyPeerCertificate
  rw [hsecure]
  simp only [Bool.false_eq_true, if_false]
  cases hc : checkChains lib c.hostname now chains with
  | some e => rfl
  | none =>
    cases hp : s.PinManager with
    | none => rfl
    | some m => simp [hnone m hp]

/-! ## The certificate-verification callback: claims C1, C2, C3 -/

/-- C1. With insecure mode off and a pin manager registered for the address, on
verified chains in which every certificate is inside its validity window and every
certificate that is not a CA matches the hostname, the callback returns nil exactly
when some certificate of some chain satisfies the manager's `Verify`, and it returns
the error "pin verification failed" when none does. -/
theorem verifyPeerCertificate_pinned (lib : Lib) (s : Session) (c : VerifyClosure)
    (now : Int) (rawCerts : List (List Nat)) (chains : List (List Certificate))
    (pinManager : String → Option PinManager) (manager : PinManager)
    (hsecure : s.InsecureSkipVerify = false)
    (hmap : s.PinManager = some pinManager)
    (hreg : pinManager c.addr = some manager)
    (hok : ∀ chain ∈ chains, ∀ cert ∈ chain, CertAccepted lib c.hostname now cert) :
    (verifyPeerCertificate lib s c now rawCerts chains = none ↔
        ∃ chain ∈ chains, ∃ cert ∈ chain, manager.Verify cert = true) ∧
    ((¬ ∃ chain ∈ chains, ∃ cert ∈ chain, manager.Verify cert = true) →
        verifyPeerCertificate lib s c now rawCerts chains
          = some "pin verification failed") := by
  have hc : checkChains lib c.hostname now chains = none :=
    (checkChains_eq_none_iff lib c.hostname now chains).2 hok
  have hv : verifyPeerCertificate lib s c now rawCerts chains
      = if pinChains manager chains then none else some "pin verification failed" := by
    unfold verifyPeerCertificate
    rw [hsecure, hc, hmap]
    simp only [Bool.false_eq_true, if_false, hreg]
  rw [hv]
  cases hp : pinChains manager chains
  · have hno : ¬ ∃ chain ∈ chains, ∃ cert ∈ chain, manager.Verify cert = true := by
      rw [← pinChains_eq_true_iff, hp]; simp
    simp [hno]
  · have hyes : ∃ chain ∈ chains, ∃ cert ∈ chain, manager.Verify cert = true :=
      (pinChains_eq_true_iff manager chains).1 hp
    simp [hyes]

/-- C2. With insecure mode off and no pin manager for the address (nil map or no
entry), the callback returns nil exactly when every certificate of every chain is
inside its validity window and, unless it is a CA, matches the hostname; it returns
`e` exactly when the first certificate, in chain-then-certificate order, that fails
these checks is rejected with `e`; and the result does not depend on what the hostname
check says about CA certificates. -/
theorem verifyPeerCertificate_unpinned (lib : Lib) (s : Session) (c : VerifyClosure)
    (now : Int) (rawCerts : List (List Nat)) (chains : List (List Certificate))
    (hsecure : s.InsecureSkipVerify = false)
    (hnone : ∀ m, s.PinManager = some m → m c.addr = none) :
    (verifyPeerCertificate lib s c now rawCerts chains = none ↔
        ∀ chain ∈ chains, ∀ cert ∈ chain, CertAccepted lib c.hostname now cert) ∧
    (∀ e, verifyPeerCertificate lib s c now rawCerts chains = some e ↔
        ∃ before cert after, chains.flatten = before ++ cert :: after ∧
          (∀ x ∈ before, CertAccepted lib c.hostname now x) ∧
          CertRejected lib c.hostname now cert e) ∧
    (∀ lib2 : Lib,
        (∀ cert, cert.IsCA = false →
          lib2.verifyHostname cert c.hostname = lib.verifyHostname cert c.hostname) →
        verifyPeerCertificate lib2 s c now rawCerts chains
          = verifyPeerCertificate lib s c now rawCerts chains) := by
  refine ⟨?_, ?_, ?_⟩
  · rw [verify_eq_checkChains lib s c now rawCerts chains hsecure hnone]
    exact checkChains_eq_none_iff lib c.hostname now chains
  · intro e
    rw [verify_eq_checkChains lib s c now rawCerts chains hsecure hnone]
    exact checkChains_eq_some_iff lib c.hostname now chains e
  · intro lib2 h
    rw [verify_eq_checkChains lib s c now rawCerts chains hsecure hnone,
      verify_eq_checkChains lib2 s c now rawCerts chains hsecure hnone,
      checkChains_eq_findSome, checkChains_eq_findSome]
    congr 1
    funext cert
    exact checkCert_congr lib lib2 c.hostname now h cert

/-- C3. In insecure mode the callback returns nil on every input, whatever the pin
managers of the session are. -/
theorem verifyPeerCertificate_insecure (lib : Lib) (s : Session) (c : VerifyClosure)
    (now : Int) (rawCerts : List (List Nat)) (chains : List (List Certificate))
    (pinManager : Option (String → Option PinManager))
    (hinsecure : s.InsecureSkipVerify = true) :
    verifyPeerCertificate lib s c now rawCerts chains = none ∧
    verifyPeerCertificate lib { s with PinManager := pinManager } c now rawCerts chains
      = none := by
  constructor
  · unfold verifyPeerCertificate
    rw [hinsecure]
    rfl
  · unfold verifyPeerCertificate
    simp only [hinsecure, if_true]

/-- The theorem for C1 at a chain of `leafCert` and `caCert`, read at time 150 with
`pinCA` registered for `example.com:443`. -/
theorem verifyPeerCertificate_pinned_witness :
    pinnedSession.InsecureSkipVerify = false ∧
    (verifyPeerCertificate libOK pinnedSession exampleClosure 150 []
        [[leafCert, caCert]] = none ↔
      ∃ chain ∈ [[leafCert, caCert]], ∃ cert ∈ chain, pinCA.Verify cert = true) ∧
    ((¬ ∃ chain ∈ [[leafCert, caCert]], ∃ cert ∈ chain, pinCA.Verify cert = true) →
      verifyPeerCertificate libOK pinnedSession exampleClosure 150 []
        [[leafCert, caCert]] = some "pin verification failed") :=
  ⟨rfl, verifyPeerCertificate_pinned libOK pinnedSession exampleClosure 150 []
    [[leafCert, caCert]] (fun addr => if addr = "example.com:443" then some pinCA else none)
    pinCA rfl rfl rfl
    (by
      intro chain hchain cert hcert
      simp only [List.mem_singleton] at hchain
      subst hchain
      simp only [List.mem_cons, List.mem_singleton, List.not_mem_nil, or_false] at hcert
      rcases hcert with h | h <;> subst h <;>
        simp [CertAccepted, leafCert, caCert, libOK, exactHostname, exampleClosure])⟩

/-- The theorem for C2 at a chain of `leafCert` and `caCert`, read at time 150 by a
session without pin managers. -/
theorem verifyPeerCertificate_unpinned_witness :
    plainSession.InsecureSkipVerify = false ∧
    (verifyPeerCertificate libOK plainSession exampleClosure 150 []
        [[leafCert, caCert]] = none ↔
      ∀ chain ∈ [[leafCert, caCert]], ∀ cert ∈ chain,
        CertAccepted libOK exampleClosure.hostname 150 cert) :=
  ⟨rfl, (verifyPeerCertificate_unpinned libOK plainSession exampleClosure 150 []
    [[leafCert, caCert]] rfl (by intro m h; cases h)).1⟩

/-- The theorem for C3 at an expired certificate for another host, in insecure mode. -/
theorem verifyPeerCertificate_insecure_witness :
    insecureSession.InsecureSkipVerify = true ∧
    verifyPeerCertificate libOK insecureSession exampleClosure 150 [] [[staleCert]]
      = none ∧
    verifyPeerCertificate libOK { insecureSession with PinManager := none }
      exampleClosure 150 [] [[staleCert]] = none :=
  ⟨rfl, verifyPeerCertificate_insecure libOK insecureSession exampleClosure 150 []
    [[staleCert]] none rfl⟩

/-! ## Lemmas on `upgradeTLS`, `dial` and `dialTLS` -/

theorem since_append (w0 w1 : World) (l : List Event) (h : w1.trace = w0.trace ++ l) :
    World.since w0 w1 = l := by
  unfold World.since
  rw [h]
  exact List.drop_left _ _

theorem upgradeTLS_split_error (lib : Lib) (s : Session) (ctx : Context)
    (conn : Option RawConn) (addr : String) (w : World) (c : String)
    (hsplit : lib.splitHostPort addr = Except.error c) :
    upgradeTLS lib s ctx conn addr w =
      ({ conn := none, err := some ("failed to split addr and port: " ++ c) },
        { trace := w.trace ++ [Event.splitHostPort addr], closed := w.closed }) := by
  unfold upgradeTLS
  simp only [hsplit, World.log]

theorem upgradeTLS_pin_error (lib : Lib) (s : Session) (ctx : Context)
    (conn : Option RawConn) (addr : String) (w : World) (host port c : String)
    (hsplit : lib.splitHostPort addr = Except.ok (host, port))
    (hsecure : s.InsecureSkipVerify = false) (hpin : s.Pin addr = some c) :
    upgradeTLS lib s ctx conn addr w =
      ({ conn := none, err := some ("failed to pin: " ++ c) },
        { trace := w.trace ++ [Event.splitHostPort addr, Event.pin addr],
          closed := w.closed }) := by
  unfold upgradeTLS
  simp [hsplit, hsecure, hpin, World.log]

theorem upgradeTLS_after_pin (lib : Lib) (s : Session) (ctx : Context)
    (conn : Option RawConn) (addr : String) (w : World) (host port : String)
    (hsplit : lib.splitHostPort addr = Except.ok (host, port))
    (hpin : s.InsecureSkipVerify = true ∨ s.Pin addr = none) :
    upgradeTLS lib s ctx conn addr w =
      match lib.applyPreset (presetConn s ctx conn host addr) (presetSpecs s ctx) with
      | some c =>
        ({ conn := none, err := some ("failed to apply preset: " ++ c) },
          { trace := w.trace ++ presetCalls s ctx conn host addr, closed := w.closed })
      | none =>
        match (lib.handshake (presetConn s ctx conn host addr) (presetSpecs s ctx)).err with
        | some c =>
          ({ conn := none, err := some ("failed to handshake: " ++ c) },
            { trace := w.trace ++ presetCalls s ctx conn host addr
                ++ [Event.handshake (presetConn s ctx conn host addr)],
              closed :=
                if (lib.handshake (presetConn s ctx conn host addr)
                    (presetSpecs s ctx)).closedRaw
                then w.closed ++ conn.toList else w.closed })
        | none =>
          ({ conn := some (presetConn s ctx conn host addr), err := none },
            { trace := w.trace ++ presetCalls s ctx conn host addr
                ++ [Event.handshake (presetConn s ctx conn host addr)],
              closed :=
                if (lib.handshake (presetConn s ctx conn host addr)
                    (presetSpecs s ctx)).closedRaw
                then w.closed ++ conn.toList else w.closed }) := by
  have hclose : ∀ (t : List Event),
      (World.close { trace := t, closed := w.closed } conn)
        = { trace := t, closed := w.closed ++ conn.toList } := by
    intro t
    cases conn <;> simp [World.close]
  have hforce : (ctx.forceHTTP1 == some true) = decide (ctx.forceHTTP1 = some true) := by
    cases h : ctx.forceHTTP1 with
    | none => rfl
    | some v => cases v <;> rfl
  unfold upgradeTLS presetCalls presetConn presetSpecs configFor
  simp only [hsplit, World.log, hforce]
  cases hi : s.InsecureSkipVerify <;> by_cases hf : ctx.forceHTTP1 = some true
  · have hp : s.Pin addr = none := by
      rcases hpin with h | h
      · rw [hi] at h; cases h
      · exact h
    simp only [hp, hf, decide_True, Bool.not_false, Bool.false_eq_true, if_false, if_true,
      List.append_assoc, List.singleton_append, List.nil_append, List.cons_append, hclose]
    split <;> [rfl; (split <;> split <;> simp_all)]
  · have hp : s.Pin addr = none := by
      rcases hpin with h | h
      · rw [hi] at h; cases h
      · exact h
    simp only [hp, hf, decide_False, Bool.not_false, Bool.false_eq_true, if_false, if_true,
      List.append_assoc, List.singleton_append, List.nil_append, List.cons_append, hclose]
    split <;> [rfl; (split <;> split <;> simp_all)]
  · simp only [hf, decide_True, Bool.not_true, Bool.false_eq_true, if_false, if_true,
      List.append_assoc, List.singleton_append, List.nil_append, List.cons_append, hclose]
    split <;> [rfl; (split <;> split <;> simp_all)]
  · simp only [hf, decide_False, Bool.not_true, Bool.false_eq_true, if_false, if_true,
      List.append_assoc, List.singleton_append, List.nil_append, List.cons_append, hclose]
    split <;> [rfl; (split <;> split <;> simp_all)]

theorem upgradeTLS_cases (lib : Lib) (s : Session) (ctx : Context)
    (conn : Option RawConn) (addr : String) (w : World) :
    (∃ c, lib.splitHostPort addr = Except.error c ∧
      upgradeTLS lib s ctx conn addr w =
        ({ conn := none, err := some ("failed to split addr and port: " ++ c) },
          { trace := w.trace ++ [Event.splitHostPort addr], closed := w.closed })) ∨
    (∃ host port c, lib.splitHostPort addr = Except.ok (host, port) ∧
      s.InsecureSkipVerify = false ∧ s.Pin addr = some c ∧
      upgradeTLS lib s ctx conn addr w =
        ({ conn := none, err := some ("failed to pin: " ++ c) },
          { trace := w.trace ++ [Event.splitHostPort addr, Event.pin addr],
            closed := w.closed })) ∨
    (∃ host port c, lib.splitHostPort addr = Except.ok (host, port) ∧
      (s.InsecureSkipVerify = true ∨ s.Pin addr = none) ∧
      lib.applyPreset (presetConn s ctx conn host addr) (presetSpecs s ctx) = some c ∧
      upgradeTLS lib s ctx conn addr w =
        ({ conn := none, err := some ("failed to apply preset: " ++ c) },
          { trace := w.trace ++ presetCalls s ctx conn host addr, closed := w.closed })) ∨
    (∃ host port c, lib.splitHostPort addr = Except.ok (host, port) ∧
      (s.InsecureSkipVerify = true ∨ s.Pin addr = none) ∧
      lib.applyPreset (presetConn s ctx conn host addr) (presetSpecs s ctx) = none ∧
      (lib.handshake (presetConn s ctx conn host addr) (presetSpecs s ctx)).err = some c ∧
      upgradeTLS lib s ctx conn addr w =
        ({ conn := none, err := some ("failed to handshake: " ++ c) },
          { trace := w.trace ++ presetCalls s ctx conn host addr
              ++ [Event.handshake (presetConn s ctx conn host addr)],
            closed :=
              if (lib.handshake (presetConn s ctx conn host addr)
                  (presetSpecs s ctx)).closedRaw
              then w.closed ++ conn.toList else w.closed })) ∨
    (∃ host port, lib.splitHostPort addr = Except.ok (host, port) ∧
      (s.InsecureSkipVerify = true ∨ s.Pin addr = none) ∧
      lib.applyPreset (presetConn s ctx conn host addr) (presetSpecs s ctx) = none ∧
      (lib.handshake (presetConn s ctx conn host addr) (presetSpecs s ctx)).err = none ∧
      upgradeTLS lib s ctx conn addr w =
        ({ conn := some (presetConn s ctx conn host addr), err := none },
          { trace := w.trace ++ presetCalls s ctx conn host addr
              ++ [Event.handshake (presetConn s ctx conn host addr)],
            closed :=
              if (lib.handshake (presetConn s ctx conn host addr)
                  (presetSpecs s ctx)).closedRaw
              then w.closed ++ conn.toList else w.closed })) := by
  cases hsplit : lib.splitHostPort addr with
  | error c => exact Or.inl ⟨c, rfl, upgradeTLS_split_error lib s ctx conn addr w c hsplit⟩
  | ok hp =>
    obtain ⟨host, port⟩ := hp
    have hpin : (s.InsecureSkipVerify = false ∧ ∃ c, s.Pin addr = some c) ∨
        (s.InsecureSkipVerify = true ∨ s.Pin addr = none) := by
      cases hi : s.InsecureSkipVerify
      · cases hp : s.Pin addr with
        | none => exact Or.inr (Or.inr rfl)
        | some c => exact Or.inl ⟨rfl, c, rfl⟩
      · exact Or.inr (Or.inl rfl)
    rcases hpin with ⟨hi, c, hp⟩ | hpin
    · exact Or.inr (Or.inl ⟨host, port, c, rfl, hi, hp,
        upgradeTLS_pin_error lib s ctx conn addr w host port c hsplit hi hp⟩)
    · have hrun := upgradeTLS_after_pin lib s ctx conn addr w host port hsplit hpin
      cases hpre : lib.applyPreset (presetConn s ctx conn host addr) (presetSpecs s ctx) with
      | some c =>
        rw [hpre] at hrun
        exact Or.inr (Or.inr (Or.inl ⟨host, port, c, rfl, hpin, hpre, hrun⟩))
      | none =>
        rw [hpre] at hrun
        cases hhs : (lib.handshake (presetConn s ctx conn host addr)
            (presetSpecs s ctx)).err with
        | some c =>
          rw [hhs] at hrun
          exact Or.inr (Or.inr (Or.inr (Or.inl ⟨host, port, c, rfl, hpin, hpre, hhs, hrun⟩)))
        | none =>
          rw [hhs] at hrun
          exact Or.inr (Or.inr (Or.inr (Or.inr ⟨host, port, rfl, hpin, hpre, hhs, hrun⟩)))

theorem forceALPN_eq_map (l : List TLSExtension) :
    forceALPN l = l.map (fun ext =>
      match ext with
      | TLSExtension.ALPNExtension _ => TLSExtension.ALPNExtension ["http/1.1"]
      | TLSExtension.other t d => TLSExtension.other t d) := by
  induction l with
  | nil => rfl
  | cons ext rest ih =>
    cases ext <;> simp [forceALPN, ih]

theorem stage_presetCalls (s : Session) (ctx : Context) (conn : Option RawConn)
    (host addr : String) :
    (presetCalls s ctx conn host addr).filterMap Event.stage
      = if s.InsecureSkipVerify then [0, 2] else [0, 1, 2] := by
  unfold presetCalls
  cases s.InsecureSkipVerify <;> simp [List.filterMap, Event.stage]

theorem handshake_not_mem_presetCalls (s : Session) (ctx : Context)
    (conn : Option RawConn) (host addr : String) (t : TLSConn) :
    Event.handshake t ∉ presetCalls s ctx conn host addr := by
  unfold presetCalls
  cases s.InsecureSkipVerify <;> simp

theorem applyPreset_mem_presetCalls (s : Session) (ctx : Context)
    (conn : Option RawConn) (host addr : String) (t : TLSConn) (p : ClientHelloSpec)
    (h : Event.applyPreset t p ∈ presetCalls s ctx conn host addr) :
    t = presetConn s ctx conn host addr ∧ p = presetSpecs s ctx := by
  unfold presetCalls at h
  cases hi : s.InsecureSkipVerify <;> simpa [hi] using h

theorem upgradeTLS_applyPreset_mem (lib : Lib) (s : Session) (ctx : Context)
    (conn : Option RawConn) (addr : String) (w : World) (t : TLSConn)
    (p : ClientHelloSpec)
    (h : Event.applyPreset t p ∈ World.since w (upgradeTLS lib s ctx conn addr w).2) :
    ∃ host port, lib.splitHostPort addr = Except.ok (host, port) ∧
      t = presetConn s ctx conn host addr ∧ p = presetSpecs s ctx := by
  rcases upgradeTLS_cases lib s ctx conn addr w with
    ⟨c, _, hrun⟩ | ⟨host, port, c, _, _, _, hrun⟩ | ⟨host, port, c, hsplit, _, _, hrun⟩ |
    ⟨host, port, c, hsplit, _, _, _, hrun⟩ | ⟨host, port, hsplit, _, _, _, hrun⟩
  · rw [hrun, since_append w _ [Event.splitHostPort addr] rfl] at h
    simp at h
  · rw [hrun, since_append w _ [Event.splitHostPort addr, Event.pin addr] rfl] at h
    simp at h
  · rw [hrun, since_append w _ (presetCalls s ctx conn host addr) rfl] at h
    exact ⟨host, port, hsplit, applyPreset_mem_presetCalls s ctx conn host addr t p h⟩
  · rw [hrun, since_append w _ (presetCalls s ctx conn host addr
      ++ [Event.handshake (presetConn s ctx conn host addr)])
      (List.append_assoc _ _ _)] at h
    rw [List.mem_append] at h
    rcases h with h | h
    · exact ⟨host, port, hsplit, applyPreset_mem_presetCalls s ctx conn host addr t p h⟩
    · simp at h
  · rw [hrun, since_append w _ (presetCalls s ctx conn host addr
      ++ [Event.handshake (presetConn s ctx conn host addr)])
      (List.append_assoc _ _ _)] at h
    rw [List.mem_append] at h
    rcases h with h | h
    · exact ⟨host, port, hsplit, applyPreset_mem_presetCalls s ctx conn host addr t p h⟩
    · simp at h

theorem upgradeTLS_since (lib : Lib) (s : Session) (ctx : Context)
    (conn : Option RawConn) (addr : String) (w : World) :
    (∃ c, lib.splitHostPort addr = Except.error c ∧
      World.since w (upgradeTLS lib s ctx conn addr w).2 = [Event.splitHostPort addr] ∧
      (upgradeTLS lib s ctx conn addr w).2.closed = w.closed) ∨
    (∃ host port c, lib.splitHostPort addr = Except.ok (host, port) ∧
      s.InsecureSkipVerify = false ∧ s.Pin addr = some c ∧
      World.since w (upgradeTLS lib s ctx conn addr w).2
        = [Event.splitHostPort addr, Event.pin addr] ∧
      (upgradeTLS lib s ctx conn addr w).2.closed = w.closed) ∨
    (∃ host port c, lib.splitHostPort addr = Except.ok (host, port) ∧
      (s.InsecureSkipVerify = true ∨ s.Pin addr = none) ∧
      lib.applyPreset (presetConn s ctx conn host addr) (presetSpecs s ctx) = some c ∧
      World.since w (upgradeTLS lib s ctx conn addr w).2
        = presetCalls s ctx conn host addr ∧
      (upgradeTLS lib s ctx conn addr w).2.closed = w.closed) ∨
    (∃ host port, lib.splitHostPort addr = Except.ok (host, port) ∧
      (s.InsecureSkipVerify = true ∨ s.Pin addr = none) ∧
      lib.applyPreset (presetConn s ctx conn host addr) (presetSpecs s ctx) = none ∧
      World.since w (upgradeTLS lib s ctx conn addr w).2
        = presetCalls s ctx conn host addr
            ++ [Event.handshake (presetConn s ctx conn host addr)] ∧
      (upgradeTLS lib s ctx conn addr w).2.closed =
        if (lib.handshake (presetConn s ctx conn host addr) (presetSpecs s ctx)).closedRaw
        then w.closed ++ conn.toList else w.closed) := by
  rcases upgradeTLS_cases lib s ctx conn addr w with
    ⟨c, hsplit, hrun⟩ | ⟨host, port, c, hsplit, hi, hp, hrun⟩ |
    ⟨host, port, c, hsplit, hpin, hpre, hrun⟩ |
    ⟨host, port, c, hsplit, hpin, hpre, _, hrun⟩ | ⟨host, port, hsplit, hpin, hpre, _, hrun⟩
  · refine Or.inl ⟨c, hsplit, ?_, ?_⟩
    · rw [hrun]; exact since_append w _ _ rfl
    · rw [hrun]
  · refine Or.inr (Or.inl ⟨host, port, c, hsplit, hi, hp, ?_, ?_⟩)
    · rw [hrun]; exact since_append w _ _ rfl
    · rw [hrun]
  · refine Or.inr (Or.inr (Or.inl ⟨host, port, c, hsplit, hpin, hpre, ?_, ?_⟩))
    · rw [hrun]; exact since_append w _ _ rfl
    · rw [hrun]
  · refine Or.inr (Or.inr (Or.inr ⟨host, port, hsplit, hpin, hpre, ?_, ?_⟩))
    · rw [hrun]; exact since_append w _ _ (List.append_assoc _ _ _)
    · rw [hrun]
  · refine Or.inr (Or.inr (Or.inr ⟨host, port, hsplit, hpin, hpre, ?_, ?_⟩))
    · rw [hrun]; exact since_append w _ _ (List.append_assoc _ _ _)
    · rw [hrun]

theorem pin_not_mem_presetCalls (s : Session) (ctx : Context)
    (conn : Option RawConn) (host addr a : String) (hi : s.InsecureSkipVerify = true) :
    Event.pin a ∉ presetCalls s ctx conn host addr := by
  unfold presetCalls
  simp [hi]

theorem dial_proxy_eq (lib : Lib) (s : Session) (ctx : Context) (network addr : String)
    (w : World) (pd : Context → String → String → String → GoResult RawConn)
    (hproxy : s.ProxyDialer = some pd) :
    dial lib s ctx network addr w =
      (pd ctx (ctx.userAgent.getD s.UserAgent) network addr,
        { trace := w.trace ++
            [Event.proxyDialContext ctx (ctx.userAgent.getD s.UserAgent) network addr],
          closed := w.closed }) := by
  unfold dial
  rw [hproxy]
  cases ctx.userAgent <;> rfl

theorem dial_hook_eq (lib : Lib) (s : Session) (ctx : Context) (network addr : String)
    (w : World) (hook : Dialer → Dialer × Option String)
    (hproxy : s.ProxyDialer = none) (hhook : s.ModifyDialer = some hook) :
    dial lib s ctx network addr w =
      match (hook { Timeout := s.TimeOut, KeepAlive := 30 * Second }).2 with
      | some e =>
        ({ conn := none, err := some e },
          { trace := w.trace ++
              [Event.modifyDialer { Timeout := s.TimeOut, KeepAlive := 30 * Second }],
            closed := w.closed })
      | none =>
        (lib.dialContext (hook { Timeout := s.TimeOut, KeepAlive := 30 * Second }).1
            ctx network addr,
          { trace := w.trace ++
              [Event.modifyDialer { Timeout := s.TimeOut, KeepAlive := 30 * Second },
                Event.dialContext
                  (hook { Timeout := s.TimeOut, KeepAlive := 30 * Second }).1
                  ctx network addr],
            closed := w.closed }) := by
  unfold dial
  rw [hproxy, hhook]
  simp only [World.log]
  rcases hh : hook { Timeout := s.TimeOut, KeepAlive := 30 * Second } with ⟨d1, e⟩
  cases e <;> simp

theorem dial_plain_eq (lib : Lib) (s : Session) (ctx : Context) (network addr : String)
    (w : World) (hproxy : s.ProxyDialer = none) (hhook : s.ModifyDialer = none) :
    dial lib s ctx network addr w =
      (lib.dialContext { Timeout := s.TimeOut, KeepAlive := 30 * Second } ctx network addr,
        { trace := w.trace ++
            [Event.dialContext { Timeout := s.TimeOut, KeepAlive := 30 * Second }
              ctx network addr],
          closed := w.closed }) := by
  unfold dial
  rw [hproxy, hhook]
  rfl

theorem dial_world (lib : Lib) (s : Session) (ctx : Context) (network addr : String)
    (w : World) :
    ∃ l, (dial lib s ctx network addr w).2
        = { trace := w.trace ++ l, closed := w.closed } ∧
      ∀ e ∈ l, e.stage = none := by
  cases hproxy : s.ProxyDialer with
  | some pd =>
    rw [dial_proxy_eq lib s ctx network addr w pd hproxy]
    exact ⟨_, rfl, by simp [Event.stage]⟩
  | none =>
    cases hhook : s.ModifyDialer with
    | none =>
      rw [dial_plain_eq lib s ctx network addr w hproxy hhook]
      exact ⟨_, rfl, by simp [Event.stage]⟩
    | some hook =>
      rw [dial_hook_eq lib s ctx network addr w hook hproxy hhook]
      cases (hook { Timeout := s.TimeOut, KeepAlive := 30 * Second }).2 with
      | some e => exact ⟨_, rfl, by simp [Event.stage]⟩
      | none => exact ⟨_, rfl, by simp [Event.stage]⟩

theorem dialTLS_cases (lib : Lib) (s : Session) (ctx : Context) (network addr : String)
    (w : World) :
    (∃ c, (dial lib s ctx network addr w).1.err = some c ∧
      dialTLS lib s ctx network addr w =
        ({ conn := none, err := some ("failed to dial: " ++ c) },
          (dial lib s ctx network addr w).2)) ∨
    ((dial lib s ctx network addr w).1.err = none ∧
      dialTLS lib s ctx network addr w =
        upgradeTLS lib s ctx (dial lib s ctx network addr w).1.conn addr
          (dial lib s ctx network addr w).2) := by
  unfold dialTLS
  cases h : (dial lib s ctx network addr w).1.err with
  | some c => exact Or.inl ⟨c, rfl, by simp [h]⟩
  | none => exact Or.inr ⟨rfl, by simp [h]⟩

theorem since_trans (w0 w1 w2 : World) (l1 l2 : List Event)
    (h1 : w1.trace = w0.trace ++ l1) (h2 : w2.trace = w1.trace ++ l2) :
    World.since w0 w2 = l1 ++ l2 := by
  apply since_append
  rw [h2, h1, List.append_assoc]

theorem since_self_append (w : World) (l : List Event) (c : List RawConn) :
    World.since w { trace := w.trace ++ l, closed := c } = l :=
  since_append w _ l rfl

theorem upgradeTLS_trace (lib : Lib) (s : Session) (ctx : Context)
    (conn : Option RawConn) (addr : String) (w : World) :
    (upgradeTLS lib s ctx conn addr w).2.trace
      = w.trace ++ World.since w (upgradeTLS lib s ctx conn addr w).2 := by
  rcases upgradeTLS_cases lib s ctx conn addr w with
    ⟨c, _, hrun⟩ | ⟨host, port, c, _, _, _, hrun⟩ | ⟨host, port, c, _, _, _, hrun⟩ |
    ⟨host, port, c, _, _, _, _, hrun⟩ | ⟨host, port, _, _, _, _, hrun⟩
  · rw [hrun, since_self_append]
  · rw [hrun, since_self_append]
  · rw [hrun, since_self_append]
  · rw [hrun]
    simp only [List.append_assoc]
    rw [since_self_append]
  · rw [hrun]
    simp only [List.append_assoc]
    rw [since_self_append]

/-- The calls of a `dialTLS` run that went on to `upgradeTLS` are those of `dial`
followed by those of `upgradeTLS`. -/
theorem dialTLS_since (lib : Lib) (s : Session) (ctx : Context) (network addr : String)
    (w : World) (h : (dial lib s ctx network addr w).1.err = none) :
    World.since w (dialTLS lib s ctx network addr w).2
      = World.since w (dial lib s ctx network addr w).2
        ++ World.since (dial lib s ctx network addr w).2
            (upgradeTLS lib s ctx (dial lib s ctx network addr w).1.conn addr
              (dial lib s ctx network addr w).2).2 := by
  rcases dialTLS_cases lib s ctx network addr w with ⟨c, hc, _⟩ | ⟨_, hrun⟩
  · rw [h] at hc; cases hc
  · obtain ⟨l, hw, _⟩ := dial_world lib s ctx network addr w
    rw [hrun]
    apply since_trans w (dial lib s ctx network addr w).2
    · rw [hw, since_self_append]
    · exact upgradeTLS_trace lib s ctx _ addr _

theorem mem_dial_since (lib : Lib) (s : Session) (ctx : Context) (network addr : String)
    (w : World) (e : Event) (h : e ∈ World.since w (dial lib s ctx network addr w).2) :
    e.stage = none := by
  obtain ⟨l, hw, hl⟩ := dial_world lib s ctx network addr w
  rw [hw, since_self_append] at h
  exact hl e h

/-! ## `upgradeTLS`: claims C4, C5, C10 -/

/-- C4. When the context carries the force-HTTP/1.1 flag set to true, every profile
`upgradeTLS` hands to `ApplyPreset` has as many extensions as the profile returned by
`GetClientHelloSpec`, position by position an ALPN extension with the protocol list
`["http/1.1"]` where the returned profile has an ALPN extension and the very same
extension where it has another one; every ALPN extension in it lists exactly
`["http/1.1"]`; the rest of the profile is unchanged; and `NextProtos` of the
configuration of the TLS connection is `["http/1.1"]`. -/
theorem upgradeTLS_forceHTTP1 (lib : Lib) (s : Session) (ctx : Context)
    (conn : Option RawConn) (addr : String) (w : World) (tlsConn : TLSConn)
    (specs : ClientHelloSpec)
    (hforce : ctx.forceHTTP1 = some true)
    (hcall : Event.applyPreset tlsConn specs
      ∈ World.since w (upgradeTLS lib s ctx conn addr w).2) :
    specs.Extensions.length = (s.GetClientHelloSpec ()).Extensions.length ∧
    (∀ i (h1 : i < specs.Extensions.length)
        (h2 : i < (s.GetClientHelloSpec ()).Extensions.length),
      (∀ p, (s.GetClientHelloSpec ()).Extensions[i] = TLSExtension.ALPNExtension p →
        specs.Extensions[i] = TLSExtension.ALPNExtension ["http/1.1"]) ∧
      (∀ t d, (s.GetClientHelloSpec ()).Extensions[i] = TLSExtension.other t d →
        specs.Extensions[i] = TLSExtension.other t d)) ∧
    (∀ p, TLSExtension.ALPNExtension p ∈ specs.Extensions → p = ["http/1.1"]) ∧
    specs.CipherSuites = (s.GetClientHelloSpec ()).CipherSuites ∧
    specs.CompressionMethods = (s.GetClientHelloSpec ()).CompressionMethods ∧
    tlsConn.config.NextProtos = ["http/1.1"] := by
  obtain ⟨host, port, _, ht, hp⟩ :=
    upgradeTLS_applyPreset_mem lib s ctx conn addr w tlsConn specs hcall
  have hspecs : specs = { s.GetClientHelloSpec () with
      Extensions := forceALPN (s.GetClientHelloSpec ()).Extensions } := by
    rw [hp, presetSpecs, if_pos hforce]
  have hext : specs.Extensions = forceALPN (s.GetClientHelloSpec ()).Extensions := by
    rw [hspecs]
  refine ⟨?_, ?_, ?_, ?_, ?_, ?_⟩
  · rw [hext, forceALPN_eq_map, List.length_map]
  · intro i h1 h2
    have hget : specs.Extensions[i] =
        (match (s.GetClientHelloSpec ()).Extensions[i] with
          | TLSExtension.ALPNExtension _ => TLSExtension.ALPNExtension ["http/1.1"]
          | TLSExtension.other t d => TLSExtension.other t d) := by
      simp only [hext, forceALPN_eq_map, List.getElem_map]
    constructor
    · intro p hp
      rw [hget, hp]
    · intro t d hp
      rw [hget, hp]
  · intro p hmem
    rw [hext, forceALPN_eq_map, List.mem_map] at hmem
    obtain ⟨ext, _, hext2⟩ := hmem
    cases ext with
    | ALPNExtension q =>
      simp only [TLSExtension.ALPNExtension.injEq] at hext2
      exact hext2.symm
    | other t d => cases hext2
  · rw [hspecs]
  · rw [hspecs]
  · rw [ht, presetConn, if_pos hforce]

/-- The theorem for C4 at the profile `chromeLike`: the profile applied is
`chromeLikeHTTP1`. -/
theorem upgradeTLS_forceHTTP1_witness :
    Event.applyPreset
        (presetConn plainSession forcedCtx (some { id := 1 }) "example.com"
          "example.com:443") chromeLikeHTTP1
      ∈ World.since World.init (upgradeTLS libOK plainSession forcedCtx
          (some { id := 1 }) "example.com:443" World.init).2 ∧
    chromeLikeHTTP1.Extensions.length = chromeLike.Extensions.length ∧
    (∀ p, TLSExtension.ALPNExtension p ∈ chromeLikeHTTP1.Extensions → p = ["http/1.1"]) ∧
    (presetConn plainSession forcedCtx (some { id := 1 }) "example.com"
      "example.com:443").config.NextProtos = ["http/1.1"] :=
  have h := upgradeTLS_forceHTTP1 libOK plainSession forcedCtx (some { id := 1 })
    "example.com:443" World.init
    (presetConn plainSession forcedCtx (some { id := 1 }) "example.com" "example.com:443")
    chromeLikeHTTP1 rfl (by decide)
  ⟨by decide, h.1, h.2.2.1, h.2.2.2.2.2⟩

/-- C10. The calls of one `upgradeTLS` run are in the order address split, pin
pre-check, preset application, handshake, each made at most once, and the address split
comes first. When the address does not split, the split is the only call: no pin
pre-check and no handshake. When insecure mode is off and the pin pre-check fails, the
calls are the split and the pin pre-check only: no handshake. When insecure mode is on,
no pin pre-check is made. When the preset application fails, no handshake is made. -/
theorem upgradeTLS_stage_order (lib : Lib) (s : Session) (ctx : Context)
    (conn : Option RawConn) (addr : String) (w : World) :
    List.Pairwise (fun a b => a < b)
      ((World.since w (upgradeTLS lib s ctx conn addr w).2).filterMap Event.stage) ∧
    (World.since w (upgradeTLS lib s ctx conn addr w).2).head?
      = some (Event.splitHostPort addr) ∧
    (∀ c, lib.splitHostPort addr = Except.error c →
      World.since w (upgradeTLS lib s ctx conn addr w).2 = [Event.splitHostPort addr]) ∧
    (∀ hp c, lib.splitHostPort addr = Except.ok hp → s.InsecureSkipVerify = false →
      s.Pin addr = some c →
      World.since w (upgradeTLS lib s ctx conn addr w).2
        = [Event.splitHostPort addr, Event.pin addr]) ∧
    (s.InsecureSkipVerify = true →
      ∀ a, Event.pin a ∉ World.since w (upgradeTLS lib s ctx conn addr w).2) ∧
    (∀ t p c, Event.applyPreset t p ∈ World.since w (upgradeTLS lib s ctx conn addr w).2 →
      lib.applyPreset t p = some c →
      ∀ t2, Event.handshake t2 ∉ World.since w (upgradeTLS lib s ctx conn addr w).2) := by
  rcases upgradeTLS_since lib s ctx conn addr w with
    ⟨c, hsplit, hs, _⟩ | ⟨host, port, c, hsplit, hi, hp, hs, _⟩ |
    ⟨host, port, c, hsplit, hpin, hpre, hs, _⟩ | ⟨host, port, hsplit, hpin, hpre, hs, _⟩
  · rw [hs]
    refine ⟨by simp [List.filterMap, Event.stage], rfl, fun _ _ => rfl, ?_, ?_, ?_⟩
    · intro hp c2 h; rw [hsplit] at h; cases h
    · intro _ a; simp
    · intro t p c2 h; simp at h
  · rw [hs]
    refine ⟨by simp [List.filterMap, Event.stage], rfl, ?_, fun _ _ _ _ _ => rfl, ?_, ?_⟩
    · intro c2 h; rw [hsplit] at h; cases h
    · intro h; rw [hi] at h; cases h
    · intro t p c2 h; simp at h
  · rw [hs]
    refine ⟨?_, ?_, ?_, ?_, ?_, ?_⟩
    · rw [stage_presetCalls]
      cases s.InsecureSkipVerify <;> simp
    · unfold presetCalls; cases s.InsecureSkipVerify <;> rfl
    · intro c2 h; rw [hsplit] at h; cases h
    · intro hp c2 _ hi hp2
      rcases hpin with h | h
      · rw [hi] at h; cases h
      · rw [hp2] at h; cases h
    · intro hi a
      exact pin_not_mem_presetCalls s ctx conn host addr a hi
    · intro t p c2 _ _ t2
      exact handshake_not_mem_presetCalls s ctx conn host addr t2
  · rw [hs]
    refine ⟨?_, ?_, ?_, ?_, ?_, ?_⟩
    · rw [List.filterMap_append, stage_presetCalls]
      cases s.InsecureSkipVerify <;> simp [List.filterMap, Event.stage]
    · unfold presetCalls; cases s.InsecureSkipVerify <;> rfl
    · intro c2 h; rw [hsplit] at h; cases h
    · intro hp c2 _ hi hp2
      rcases hpin with h | h
      · rw [hi] at h; cases h
      · rw [hp2] at h; cases h
    · intro hi a h
      rw [List.mem_append] at h
      rcases h with h | h
      · exact pin_not_mem_presetCalls s ctx conn host addr a hi h
      · simp at h
    · intro t p c2 h hfail
      rw [List.mem_append] at h
      rcases h with h | h
      · obtain ⟨ht, hp2⟩ := applyPreset_mem_presetCalls s ctx conn host addr t p h
        rw [ht, hp2, hpre] at hfail
        cases hfail
      · simp at h

/-- The theorem for C10 at a run that succeeds with insecure mode off: its calls go
through the four stages in order. -/
theorem upgradeTLS_stage_order_witness :
    (World.since World.init (upgradeTLS libOK plainSession plainCtx (some { id := 1 })
        "example.com:443" World.init).2).filterMap Event.stage = [0, 1, 2, 3] ∧
    List.Pairwise (fun a b => a < b)
      ((World.since World.init (upgradeTLS libOK plainSession plainCtx (some { id := 1 })
        "example.com:443" World.init).2).filterMap Event.stage) ∧
    (World.since World.init (upgradeTLS libOK plainSession plainCtx (some { id := 1 })
        "example.com:443" World.init).2).head?
      = some (Event.splitHostPort "example.com:443") :=
  have h := upgradeTLS_stage_order libOK plainSession plainCtx (some { id := 1 })
    "example.com:443" World.init
  ⟨by decide, h.1, h.2.1⟩

/-- C5, as stated, fails. `upgradeTLS` called with the open raw connection 1 on an
address without a port returns the split error and the connection has not been
closed; `dialTLS` with a failing pin pre-check returns the pin error and the raw
connection 1 it had dialled has not been closed. -/
theorem upgradeTLS_error_leaves_conn_open :
    (upgradeTLS libOK plainSession plainCtx (some { id := 1 }) "example.com"
        World.init).1
      = { conn := none,
          err := some "failed to split addr and port: missing port in address" } ∧
    ({ id := 1 } : RawConn) ∉
      (upgradeTLS libOK plainSession plainCtx (some { id := 1 }) "example.com"
        World.init).2.closed ∧
    (dial libOK pinFailSession plainCtx "tcp" "example.com:443" World.init).1
      = { conn := some { id := 1 }, err := none } ∧
    (dialTLS libOK pinFailSession plainCtx "tcp" "example.com:443" World.init).1
      = { conn := none, err := some "failed to pin: no pin for host" } ∧
    ({ id := 1 } : RawConn) ∉
      (dialTLS libOK pinFailSession plainCtx "tcp" "example.com:443" World.init).2.closed := by
  refine ⟨by decide, by decide, by decide, by decide, by decide⟩

/-- C5, amended. `upgradeTLS` and `dialTLS` never close the raw connection
themselves. A run that made no handshake call leaves the closed connections as they
were at the call; that is so when the address split fails, when the pin pre-check
fails and when the preset application fails. After a handshake call the raw
connection has been closed exactly when the TLS library closed it while
handshaking. -/
theorem upgradeTLS_closes_nothing (lib : Lib) (s : Session) (ctx : Context)
    (conn : Option RawConn) (network addr : String) (w : World) :
    ((∀ t, Event.handshake t ∉ World.since w (upgradeTLS lib s ctx conn addr w).2) →
      (upgradeTLS lib s ctx conn addr w).2.closed = w.closed) ∧
    (∀ c, lib.splitHostPort addr = Except.error c →
      (upgradeTLS lib s ctx conn addr w).2.closed = w.closed) ∧
    (∀ hp c, lib.splitHostPort addr = Except.ok hp → s.InsecureSkipVerify = false →
      s.Pin addr = some c → (upgradeTLS lib s ctx conn addr w).2.closed = w.closed) ∧
    (∀ t p c, Event.applyPreset t p ∈ World.since w (upgradeTLS lib s ctx conn addr w).2 →
      lib.applyPreset t p = some c →
      (upgradeTLS lib s ctx conn addr w).2.closed = w.closed) ∧
    (∀ t, Event.handshake t ∈ World.since w (upgradeTLS lib s ctx conn addr w).2 →
      ∃ p, Event.applyPreset t p ∈ World.since w (upgradeTLS lib s ctx conn addr w).2 ∧
        (upgradeTLS lib s ctx conn addr w).2.closed =
          if (lib.handshake t p).closedRaw then w.closed ++ conn.toList else w.closed) ∧
    ((∀ t, Event.handshake t ∉ World.since w (dialTLS lib s ctx network addr w).2) →
      (dialTLS lib s ctx network addr w).2.closed = w.closed) := by
  have hup : ∀ (conn : Option RawConn) (w : World),
      (∀ t, Event.handshake t ∉ World.since w (upgradeTLS lib s ctx conn addr w).2) →
      (upgradeTLS lib s ctx conn addr w).2.closed = w.closed := by
    intro conn w hno
    rcases upgradeTLS_since lib s ctx conn addr w with
      ⟨c, _, _, hc⟩ | ⟨host, port, c, _, _, _, _, hc⟩ |
      ⟨host, port, c, _, _, _, _, hc⟩ | ⟨host, port, _, _, _, hs, _⟩
    · exact hc
    · exact hc
    · exact hc
    · exact absurd (by rw [hs]; simp) (hno (presetConn s ctx conn host addr))
  refine ⟨hup conn w, ?_, ?_, ?_, ?_, ?_⟩
  · intro c hc
    rcases upgradeTLS_since lib s ctx conn addr w with
      ⟨_, _, _, h⟩ | ⟨host, port, _, hsplit, _⟩ |
      ⟨host, port, _, hsplit, _⟩ | ⟨host, port, hsplit, _⟩
    · exact h
    · rw [hsplit] at hc; cases hc
    · rw [hsplit] at hc; cases hc
    · rw [hsplit] at hc; cases hc
  · intro hp c hsplit hi hpin
    rcases upgradeTLS_since lib s ctx conn addr w with
      ⟨_, _, _, h⟩ | ⟨host, port, _, _, _, _, _, h⟩ |
      ⟨host, port, _, _, _, _, _, h⟩ | ⟨host, port, _, hok, _⟩
    · exact h
    · exact h
    · exact h
    · rcases hok with h | h
      · rw [hi] at h; cases h
      · rw [hpin] at h; cases h
  · intro t p c hmem hfail
    rcases upgradeTLS_since lib s ctx conn addr w with
      ⟨_, _, _, h⟩ | ⟨host, port, _, _, _, _, _, h⟩ |
      ⟨host, port, _, _, _, _, _, h⟩ | ⟨host, port, _, _, hpre, hs, _⟩
    · exact h
    · exact h
    · exact h
    · rw [hs, List.mem_append] at hmem
      rcases hmem with h | h
      · obtain ⟨ht, hp2⟩ := applyPreset_mem_presetCalls s ctx conn host addr t p h
        rw [ht, hp2, hpre] at hfail
        cases hfail
      · simp at h
  · intro t hmem
    rcases upgradeTLS_since lib s ctx conn addr w with
      ⟨c, _, hs, _⟩ | ⟨host, port, c, _, _, _, hs, _⟩ |
      ⟨host, port, c, _, _, _, hs, _⟩ | ⟨host, port, _, _, _, hs, hc⟩
    · rw [hs] at hmem; simp at hmem
    · rw [hs] at hmem; simp at hmem
    · rw [hs] at hmem
      exact absurd hmem (handshake_not_mem_presetCalls s ctx conn host addr t)
    · have ht : t = presetConn s ctx conn host addr := by
        rw [hs, List.mem_append] at hmem
        rcases hmem with h | h
        · exact absurd h (handshake_not_mem_presetCalls s ctx conn host addr t)
        · simpa using h
      refine ⟨presetSpecs s ctx, ?_, ?_⟩
      · rw [hs, ht, List.mem_append]
        left
        unfold presetCalls
        simp
      · rw [hc, ht]
  · intro hno
    obtain ⟨l, hw, _⟩ := dial_world lib s ctx network addr w
    rcases dialTLS_cases lib s ctx network addr w with ⟨c, _, hrun⟩ | ⟨hok, hrun⟩
    · rw [hrun, hw]
    · have hsince := dialTLS_since lib s ctx network addr w hok
      rw [hrun, hup]
      · rw [hw]
      · intro t hmem
        apply hno t
        rw [hsince]
        exact List.mem_append_right _ hmem

/-! ## `dialTLS`: claims C6, C7 -/

/-- C6. Every call of `dialTLS` returns either a connection and no error, or no
connection and an error; and whenever the dial, the address split, the pin pre-check,
the preset application or the handshake fails, the connection returned is nil and the
error is not. -/
theorem dialTLS_conn_xor_err (lib : Lib) (s : Session) (ctx : Context)
    (network addr : String) (w : World) :
    ((∃ c, (dialTLS lib s ctx network addr w).1.conn = some c ∧
        (dialTLS lib s ctx network addr w).1.err = none) ∨
      ((dialTLS lib s ctx network addr w).1.conn = none ∧
        ∃ e, (dialTLS lib s ctx network addr w).1.err = some e)) ∧
    (∀ c, (dial lib s ctx network addr w).1.err = some c →
      (dialTLS lib s ctx network addr w).1.conn = none ∧
      (dialTLS lib s ctx network addr w).1.err ≠ none) ∧
    ((dial lib s ctx network addr w).1.err = none →
      (∀ c, lib.splitHostPort addr = Except.error c →
        (dialTLS lib s ctx network addr w).1.conn = none ∧
        (dialTLS lib s ctx network addr w).1.err ≠ none) ∧
      (∀ hp c, lib.splitHostPort addr = Except.ok hp → s.InsecureSkipVerify = false →
        s.Pin addr = some c →
        (dialTLS lib s ctx network addr w).1.conn = none ∧
        (dialTLS lib s ctx network addr w).1.err ≠ none) ∧
      (∀ t p c,
        Event.applyPreset t p ∈ World.since w (dialTLS lib s ctx network addr w).2 →
        lib.applyPreset t p = some c →
        (dialTLS lib s ctx network addr w).1.conn = none ∧
        (dialTLS lib s ctx network addr w).1.err ≠ none) ∧
      (∀ t p c,
        Event.applyPreset t p ∈ World.since w (dialTLS lib s ctx network addr w).2 →
        Event.handshake t ∈ World.since w (dialTLS lib s ctx network addr w).2 →
        (lib.handshake t p).err = some c →
        (dialTLS lib s ctx network addr w).1.conn = none ∧
        (dialTLS lib s ctx network addr w).1.err ≠ none)) := by
  rcases dialTLS_cases lib s ctx network addr w with ⟨c, hc, hrun⟩ | ⟨hok, hrun⟩
  · refine ⟨Or.inr ?_, ?_, ?_⟩
    · rw [hrun]; exact ⟨rfl, _, rfl⟩
    · intro _ _; rw [hrun]; exact ⟨rfl, by simp⟩
    · intro h; rw [hc] at h; cases h
  · have hsince := dialTLS_since lib s ctx network addr w hok
    have hmem : ∀ e, e.stage ≠ none →
        e ∈ World.since w (dialTLS lib s ctx network addr w).2 →
        e ∈ World.since (dial lib s ctx network addr w).2
            (upgradeTLS lib s ctx (dial lib s ctx network addr w).1.conn addr
              (dial lib s ctx network addr w).2).2 := by
      intro e hst he
      rw [hsince, List.mem_append] at he
      rcases he with he | he
      · exact absurd (mem_dial_since lib s ctx network addr w e he) hst
      · exact he
    rcases upgradeTLS_cases lib s ctx (dial lib s ctx network addr w).1.conn addr
        (dial lib s ctx network addr w).2 with
      ⟨c, hsplit, hup⟩ | ⟨host, port, c, hsplit, hi, hp, hup⟩ |
      ⟨host, port, c, hsplit, hpin, hpre, hup⟩ |
      ⟨host, port, c, hsplit, hpin, hpre, hhs, hup⟩ |
      ⟨host, port, hsplit, hpin, hpre, hhs, hup⟩
    · rw [hrun, hup]
      refine ⟨Or.inr ⟨rfl, _, rfl⟩, ?_, fun _ => ⟨?_, ?_, ?_, ?_⟩⟩ <;> intros <;>
        exact ⟨rfl, by simp⟩
    · rw [hrun, hup]
      refine ⟨Or.inr ⟨rfl, _, rfl⟩, ?_, fun _ => ⟨?_, ?_, ?_, ?_⟩⟩ <;> intros <;>
        exact ⟨rfl, by simp⟩
    · rw [hrun, hup]
      refine ⟨Or.inr ⟨rfl, _, rfl⟩, ?_, fun _ => ⟨?_, ?_, ?_, ?_⟩⟩ <;> intros <;>
        exact ⟨rfl, by simp⟩
    · rw [hrun, hup]
      refine ⟨Or.inr ⟨rfl, _, rfl⟩, ?_, fun _ => ⟨?_, ?_, ?_, ?_⟩⟩ <;> intros <;>
        exact ⟨rfl, by simp⟩
    · refine ⟨Or.inl ⟨_, by rw [hrun, hup], by rw [hrun, hup]⟩, ?_, fun _ => ⟨?_, ?_, ?_, ?_⟩⟩
      · intro c hc; rw [hok] at hc; cases hc
      · intro c hc; rw [hsplit] at hc; cases hc
      · intro hp c _ hi hp2
        rcases hpin with h | h
        · rw [hi] at h; cases h
        · rw [hp2] at h; cases h
      · intro t p c hm hfail
        obtain ⟨h2, p2, hsp, ht, hp3⟩ := upgradeTLS_applyPreset_mem lib s ctx _ addr _ t p
          (hmem _ (by simp [Event.stage]) hm)
        rw [hsplit] at hsp
        cases hsp
        rw [ht, hp3, hpre] at hfail
        cases hfail
      · intro t p c hm _ hfail
        obtain ⟨h2, p2, hsp, ht, hp3⟩ := upgradeTLS_applyPreset_mem lib s ctx _ addr _ t p
          (hmem _ (by simp [Event.stage]) hm)
        rw [hsplit] at hsp
        cases hsp
        rw [ht, hp3, hhs] at hfail
        cases hfail

/-- The theorem for C6 at a run that succeeds and at a run whose pin pre-check
fails. -/
theorem dialTLS_conn_xor_err_witness :
    (dialTLS libOK plainSession plainCtx "tcp" "example.com:443" World.init).1.err = none ∧
    ((∃ c, (dialTLS libOK plainSession plainCtx "tcp" "example.com:443"
          World.init).1.conn = some c ∧
        (dialTLS libOK plainSession plainCtx "tcp" "example.com:443"
          World.init).1.err = none) ∨
      ((dialTLS libOK plainSession plainCtx "tcp" "example.com:443"
          World.init).1.conn = none ∧
        ∃ e, (dialTLS libOK plainSession plainCtx "tcp" "example.com:443"
          World.init).1.err = some e)) ∧
    (dialTLS libOK pinFailSession plainCtx "tcp" "example.com:443" World.init).1.conn
      = none :=
  ⟨by decide,
    (dialTLS_conn_xor_err libOK plainSession plainCtx "tcp" "example.com:443"
      World.init).1,
    ((dialTLS_conn_xor_err libOK pinFailSession plainCtx "tcp" "example.com:443"
      World.init).2.2 (by decide)).2.1 ("example.com", "443") "no pin for host"
      rfl rfl rfl |>.1⟩

/-- C7, as stated, fails. With a profile that `ApplyPreset` refuses, `dialTLS` returns
the error "failed to apply preset: empty profile", which is not a cause wrapped
with one of the labels of the dial, split, pin and handshake stages. -/
theorem dialTLS_preset_label_outside_spec :
    (dialTLS libOK emptyProfileSession plainCtx "tcp" "example.com:443" World.init).1.err
      = some "failed to apply preset: empty profile" ∧
    ∀ label ∈ specStageLabels, ∀ cause : String,
      "failed to apply preset: empty profile" ≠ label ++ cause := by
  refine ⟨by decide, ?_⟩
  intro label hlabel cause h
  have hdata := congrArg String.data h
  rw [String.data_append] at hdata
  simp only [specStageLabels, List.mem_cons, List.mem_singleton, List.not_mem_nil,
    or_false] at hlabel
  rcases hlabel with rfl | rfl | rfl | rfl <;> simp at hdata

/-- C7, amended. Every error returned by `dialTLS` is the message of the first
failing stage's error behind that stage's label, the stages being, in order, dial,
address split, pin pre-check, preset application (label "failed to apply preset: ")
and handshake. -/
theorem dialTLS_error_label (lib : Lib) (s : Session) (ctx : Context)
    (network addr : String) (w : World) (e : String)
    (herr : (dialTLS lib s ctx network addr w).1.err = some e) :
    (∃ c, (dial lib s ctx network addr w).1.err = some c ∧
      e = "failed to dial: " ++ c) ∨
    ((dial lib s ctx network addr w).1.err = none ∧
      ∃ c, lib.splitHostPort addr = Except.error c ∧
        e = "failed to split addr and port: " ++ c) ∨
    ((dial lib s ctx network addr w).1.err = none ∧
      (∃ hp, lib.splitHostPort addr = Except.ok hp) ∧
      s.InsecureSkipVerify = false ∧
      ∃ c, s.Pin addr = some c ∧ e = "failed to pin: " ++ c) ∨
    ((dial lib s ctx network addr w).1.err = none ∧
      (∃ hp, lib.splitHostPort addr = Except.ok hp) ∧
      (s.InsecureSkipVerify = true ∨ s.Pin addr = none) ∧
      ∃ t p c, Event.applyPreset t p
          ∈ World.since w (dialTLS lib s ctx network addr w).2 ∧
        lib.applyPreset t p = some c ∧ e = "failed to apply preset: " ++ c) ∨
    ((dial lib s ctx network addr w).1.err = none ∧
      (∃ hp, lib.splitHostPort addr = Except.ok hp) ∧
      (s.InsecureSkipVerify = true ∨ s.Pin addr = none) ∧
      ∃ t p c, Event.applyPreset t p
          ∈ World.since w (dialTLS lib s ctx network addr w).2 ∧
        lib.applyPreset t p = none ∧
        Event.handshake t ∈ World.since w (dialTLS lib s ctx network addr w).2 ∧
        (lib.handshake t p).err = some c ∧ e = "failed to handshake: " ++ c) := by
  rcases dialTLS_cases lib s ctx network addr w with ⟨c, hc, hrun⟩ | ⟨hok, hrun⟩
  · rw [hrun] at herr
    simp only [Option.some.injEq] at herr
    exact Or.inl ⟨c, hc, herr.symm⟩
  · have hsince := dialTLS_since lib s ctx network addr w hok
    rcases upgradeTLS_cases lib s ctx (dial lib s ctx network addr w).1.conn addr
        (dial lib s ctx network addr w).2 with
      ⟨c, hsplit, hup⟩ | ⟨host, port, c, hsplit, hi, hp, hup⟩ |
      ⟨host, port, c, hsplit, hpin, hpre, hup⟩ |
      ⟨host, port, c, hsplit, hpin, hpre, hhs, hup⟩ |
      ⟨host, port, hsplit, hpin, hpre, hhs, hup⟩
    · rw [hrun, hup] at herr
      simp only [Option.some.injEq] at herr
      exact Or.inr (Or.inl ⟨hok, c, hsplit, herr.symm⟩)
    · rw [hrun, hup] at herr
      simp only [Option.some.injEq] at herr
      exact Or.inr (Or.inr (Or.inl ⟨hok, ⟨_, hsplit⟩, hi, c, hp, herr.symm⟩))
    · have hs : World.since (dial lib s ctx network addr w).2
          (upgradeTLS lib s ctx (dial lib s ctx network addr w).1.conn addr
            (dial lib s ctx network addr w).2).2
          = presetCalls s ctx (dial lib s ctx network addr w).1.conn host addr := by
        rw [hup, since_self_append]
      rw [hrun, hup] at herr
      simp only [Option.some.injEq] at herr
      refine Or.inr (Or.inr (Or.inr (Or.inl ⟨hok, ⟨_, hsplit⟩, hpin, _, _, c, ?_, hpre,
        herr.symm⟩)))
      rw [hsince, hs]
      apply List.mem_append_right
      unfold presetCalls
      simp
    · have hs : World.since (dial lib s ctx network addr w).2
          (upgradeTLS lib s ctx (dial lib s ctx network addr w).1.conn addr
            (dial lib s ctx network addr w).2).2
          = presetCalls s ctx (dial lib s ctx network addr w).1.conn host addr
            ++ [Event.handshake
              (presetConn s ctx (dial lib s ctx network addr w).1.conn host addr)] := by
        rw [hup]
        simp only [List.append_assoc]
        rw [since_self_append]
      rw [hrun, hup] at herr
      simp only [Option.some.injEq] at herr
      refine Or.inr (Or.inr (Or.inr (Or.inr ⟨hok, ⟨_, hsplit⟩, hpin, _, _, c, ?_, hpre, ?_,
        hhs, herr.symm⟩)))
      · rw [hsince, hs]
        apply List.mem_append_right
        apply List.mem_append_left
        unfold presetCalls
        simp
      · rw [hsince, hs]
        apply List.mem_append_right
        apply List.mem_append_right
        simp
    · rw [hrun, hup] at herr
      cases herr

/-- The amended C7 at a run whose handshake fails. -/
theorem dialTLS_error_label_witness :
    (dialTLS libHandshakeFail plainSession plainCtx "tcp" "example.com:443"
        World.init).1.err
      = some "failed to handshake: remote error: tls: bad certificate" ∧
    ((∃ c, (dial libHandshakeFail plainSession plainCtx "tcp" "example.com:443"
          World.init).1.err = some c ∧
        "failed to handshake: remote error: tls: bad certificate"
          = "failed to dial: " ++ c) ∨
      ((dial libHandshakeFail plainSession plainCtx "tcp" "example.com:443"
          World.init).1.err = none ∧
        ∃ c, libHandshakeFail.splitHostPort "example.com:443" = Except.error c ∧
          "failed to handshake: remote error: tls: bad certificate"
            = "failed to split addr and port: " ++ c) ∨
      ((dial libHandshakeFail plainSession plainCtx "tcp" "example.com:443"
          World.init).1.err = none ∧
        (∃ hp, libHandshakeFail.splitHostPort "example.com:443" = Except.ok hp) ∧
        plainSession.InsecureSkipVerify = false ∧
        ∃ c, plainSession.Pin "example.com:443" = some c ∧
          "failed to handshake: remote error: tls: bad certificate"
            = "failed to pin: " ++ c) ∨
      ((dial libHandshakeFail plainSession plainCtx "tcp" "example.com:443"
          World.init).1.err = none ∧
        (∃ hp, libHandshakeFail.splitHostPort "example.com:443" = Except.ok hp) ∧
        (plainSession.InsecureSkipVerify = true ∨ plainSession.Pin "example.com:443" = none) ∧
        ∃ t p c, Event.applyPreset t p
            ∈ World.since World.init (dialTLS libHandshakeFail plainSession plainCtx "tcp"
                "example.com:443" World.init).2 ∧
          libHandshakeFail.applyPreset t p = some c ∧
          "failed to handshake: remote error: tls: bad certificate"
            = "failed to apply preset: " ++ c) ∨
      ((dial libHandshakeFail plainSession plainCtx "tcp" "example.com:443"
          World.init).1.err = none ∧
        (∃ hp, libHandshakeFail.splitHostPort "example.com:443" = Except.ok hp) ∧
        (plainSession.InsecureSkipVerify = true ∨ plainSession.Pin "example.com:443" = none) ∧
        ∃ t p c, Event.applyPreset t p
            ∈ World.since World.init (dialTLS libHandshakeFail plainSession plainCtx "tcp"
                "example.com:443" World.init).2 ∧
          libHandshakeFail.applyPreset t p = none ∧
          Event.handshake t
            ∈ World.since World.init (dialTLS libHandshakeFail plainSession plainCtx "tcp"
                "example.com:443" World.init).2 ∧
          (libHandshakeFail.handshake t p).err = some c ∧
          "failed to handshake: remote error: tls: bad certificate"
            = "failed to handshake: " ++ c)) :=
  ⟨by decide, dialTLS_error_label libHandshakeFail plainSession plainCtx "tcp"
    "example.com:443" World.init
    "failed to handshake: remote error: tls: bad certificate" (by decide)⟩

/-! ## `dial`: claims C8, C9 -/

/-- C8. Without a proxy dialer and with a dialer hook, the calls of `dial` start
with one call of the hook, on a dialer whose timeout is the session timeout and whose
keep-alive is 30 seconds, and the hook is not called again. If the hook returns an
error, that call is the only one `dial` makes (no network dial) and `dial` returns nil
and that error; `dialTLS` then returns nil and the error behind the label
"failed to dial: ", and makes no other call either (no TLS upgrade). -/
theorem dial_hook_once (lib : Lib) (s : Session) (ctx : Context) (network addr : String)
    (w : World) (hook : Dialer → Dialer × Option String)
    (hproxy : s.ProxyDialer = none) (hhook : s.ModifyDialer = some hook) :
    (∃ d rest, World.since w (dial lib s ctx network addr w).2
        = Event.modifyDialer d :: rest ∧
      d.Timeout = s.TimeOut ∧ d.KeepAlive = 30 * 1000000000 ∧
      (∀ d2, Event.modifyDialer d2 ∉ rest) ∧
      ∀ e, (hook d).2 = some e →
        rest = [] ∧
        (dial lib s ctx network addr w).1 = { conn := none, err := some e } ∧
        (dialTLS lib s ctx network addr w).1
          = { conn := none, err := some ("failed to dial: " ++ e) } ∧
        World.since w (dialTLS lib s ctx network addr w).2 = [Event.modifyDialer d]) := by
  have hd := dial_hook_eq lib s ctx network addr w hook hproxy hhook
  cases hh : (hook { Timeout := s.TimeOut, KeepAlive := 30 * Second }).2 with
  | some e =>
    rw [hh] at hd
    refine ⟨{ Timeout := s.TimeOut, KeepAlive := 30 * Second }, [], ?_, rfl, rfl, ?_, ?_⟩
    · rw [hd, since_self_append]
    · intro d2; simp
    · intro e2 he2
      rw [hh] at he2
      cases he2
      refine ⟨rfl, by rw [hd], ?_, ?_⟩
      · rcases dialTLS_cases lib s ctx network addr w with ⟨c, hc, hrun⟩ | ⟨hok, _⟩
        · rw [hd] at hc
          cases hc
          rw [hrun]
        · rw [hd] at hok; cases hok
      · rcases dialTLS_cases lib s ctx network addr w with ⟨c, hc, hrun⟩ | ⟨hok, _⟩
        · rw [hrun, hd, since_self_append]
        · rw [hd] at hok; cases hok
  | none =>
    rw [hh] at hd
    refine ⟨{ Timeout := s.TimeOut, KeepAlive := 30 * Second },
      [Event.dialContext (hook { Timeout := s.TimeOut, KeepAlive := 30 * Second }).1
        ctx network addr], ?_, rfl, rfl, ?_, ?_⟩
    · rw [hd, since_self_append]
    · intro d2; simp
    · intro e2 he2
      rw [hh] at he2
      cases he2

/-- The theorem for C8 at a session whose hook fails. -/
theorem dial_hook_once_witness :
    hookFailSession.ProxyDialer = none ∧
    (dial libOK hookFailSession plainCtx "tcp" "example.com:443" World.init).1
      = { conn := none, err := some "hook refused" } ∧
    (∃ d rest, World.since World.init
          (dial libOK hookFailSession plainCtx "tcp" "example.com:443" World.init).2
        = Event.modifyDialer d :: rest ∧
      d.Timeout = hookFailSession.TimeOut ∧ d.KeepAlive = 30 * 1000000000 ∧
      (∀ d2, Event.modifyDialer d2 ∉ rest) ∧
      ∀ e, ((fun d => (({ d with Timeout := 1 } : Dialer), some "hook refused")) d).2
          = some e →
        rest = [] ∧
        (dial libOK hookFailSession plainCtx "tcp" "example.com:443" World.init).1
          = { conn := none, err := some e } ∧
        (dialTLS libOK hookFailSession plainCtx "tcp" "example.com:443" World.init).1
          = { conn := none, err := some ("failed to dial: " ++ e) } ∧
        World.since World.init
            (dialTLS libOK hookFailSession plainCtx "tcp" "example.com:443" World.init).2
          = [Event.modifyDialer d]) :=
  ⟨rfl, by decide,
    dial_hook_once libOK hookFailSession plainCtx "tcp" "example.com:443" World.init
      (fun d => ({ d with Timeout := 1 }, some "hook refused")) rfl rfl⟩

/-- C9. With a proxy dialer, `dial` makes exactly one call, to the proxy dialer,
with the context, the network, the address and the user agent of the context when
it has one and of the session otherwise, and returns what that call returns; the
dialer hook is not called and no direct dial is made. If the proxy dialer returns an
error, `dialTLS` returns nil and that error behind the label "failed to dial: ",
without any further call. -/
theorem dial_delegates_to_proxy (lib : Lib) (s : Session) (ctx : Context) (network addr : String)
    (w : World) (proxyDialer : Context → String → String → String → GoResult RawConn)
    (hproxy : s.ProxyDialer = some proxyDialer) :
    (ctx.userAgent = none →
      (dial lib s ctx network addr w).1 = proxyDialer ctx s.UserAgent network addr ∧
      World.since w (dial lib s ctx network addr w).2
        = [Event.proxyDialContext ctx s.UserAgent network addr]) ∧
    (∀ ua, ctx.userAgent = some ua →
      (dial lib s ctx network addr w).1 = proxyDialer ctx ua network addr ∧
      World.since w (dial lib s ctx network addr w).2
        = [Event.proxyDialContext ctx ua network addr]) ∧
    (∀ e, (dial lib s ctx network addr w).1.err = some e →
      (dialTLS lib s ctx network addr w).1
        = { conn := none, err := some ("failed to dial: " ++ e) } ∧
      World.since w (dialTLS lib s ctx network addr w).2
        = World.since w (dial lib s ctx network addr w).2) := by
  have hd := dial_proxy_eq lib s ctx network addr w proxyDialer hproxy
  refine ⟨?_, ?_, ?_⟩
  · intro hua
    rw [hd, hua, since_self_append]
    exact ⟨rfl, rfl⟩
  · intro ua hua
    rw [hd, hua, since_self_append]
    exact ⟨rfl, rfl⟩
  · intro e he
    rcases dialTLS_cases lib s ctx network addr w with ⟨c, hc, hrun⟩ | ⟨hok, _⟩
    · rw [he] at hc
      cases hc
      rw [hrun]
      exact ⟨rfl, rfl⟩
    · rw [he] at hok; cases hok

/-- The theorem for C9 at a proxy that serves the overriding user agent and refuses
the one of the session. -/
theorem dial_delegates_to_proxy_witness :
    (dial libOK proxySession curlCtx "tcp" "example.com:443" World.init).1
        = { conn := some { id := 7 }, err := none } ∧
    World.since World.init
        (dial libOK proxySession curlCtx "tcp" "example.com:443" World.init).2
      = [Event.proxyDialContext curlCtx "curl/8" "tcp" "example.com:443"] ∧
    (dialTLS libOK proxySession plainCtx "tcp" "example.com:443" World.init).1
      = { conn := none, err := some "failed to dial: proxy unreachable" } ∧
    World.since World.init
        (dialTLS libOK proxySession plainCtx "tcp" "example.com:443" World.init).2
      = World.since World.init
        (dial libOK proxySession plainCtx "tcp" "example.com:443" World.init).2 :=
  have h1 := dial_delegates_to_proxy libOK proxySession curlCtx "tcp" "example.com:443" World.init
    (fun _ userAgent _ _ =>
      if userAgent = "curl/8" then { conn := some { id := 7 }, err := none }
      else { conn := none, err := some "proxy unreachable" }) rfl
  have h2 := dial_delegates_to_proxy libOK proxySession plainCtx "tcp" "example.com:443" World.init
    (fun _ userAgent _ _ =>
      if userAgent = "curl/8" then { conn := some { id := 7 }, err := none }
      else { conn := none, err := some "proxy unreachable" }) rfl
  ⟨((h1.2.1 "curl/8" rfl).1).trans (by decide), (h1.2.1 "curl/8" rfl).2,
    (h2.2.2 "proxy unreachable" (by decide)).1, (h2.2.2 "proxy unreachable" (by decide)).2⟩

end AzureTLS
